import Mathlib

/-!
# Verification of the cide.py collaborative-editor core

Shallow embedding of `src/app/python/core.py` (class `Core`, class `CoreThread`)
and `src/server/ideController.py` (class `IDEController`) from the WINOT/wide.py
repository, together with proofs settling the frozen claims about them.

Python dictionaries are modelled as association lists, Python sets as
duplicate-free lists, `datetime.now()` as an explicit list of clock readings,
and the C++ `libZoneTransit.TransitZone` edit buffer (whose source is not part
of the repository) is modelled from the specification, as flagged on each such
definition.
-/

namespace Cide

/-- A JSON value as produced by `simplejson` / cherrypy `json_in`.
Python 2 distinction between `str` and `unicode` is collapsed into `jstr`;
the code under study never branches on it (`type(x) in (str, unicode)`). -/
inductive JVal where
  | jint (n : Int)
  | jstr (s : String)
  | jlist (l : List JVal)
  | jdict (fields : List (String × JVal))
  | jnull

namespace JVal

/-- Python truthiness of a JSON value (`bool(x)`): `None`, `0`, `""`,
empty list and empty dict are falsy. -/
def truthy : JVal → Bool
  | jint n => n ≠ 0
  | jstr s => s ≠ ""
  | jlist l => !l.isEmpty
  | jdict fs => !fs.isEmpty
  | jnull => false

end JVal

/-- First binding of a key in a Python dict literal represented as a field list
(`c['k']` / `'k' in c`; parsed JSON objects have unique keys). -/
def dictGet (fields : List (String × JVal)) (k : String) : Option JVal :=
  match fields with
  | [] => none
  | (k', v) :: rest => if k' = k then some v else dictGet rest k

/-- `c.get(k)`: lookup returning Python `None` when the key is absent. -/
def pyGet (fields : List (String × JVal)) (k : String) : JVal :=
  (dictGet fields k).getD JVal.jnull

/-- Number of distinct keys, `len(c.keys())` for a Python dict. -/
def keyCount (fields : List (String × JVal)) : Nat :=
  (fields.map Prod.fst).dedup.length

/-- String concatenation computed on the underlying character lists, so that
proofs can evaluate it by kernel reduction (which `String.append` on string
literals does not support). -/
def sappend (a b : String) : String := String.mk (a.data ++ b.data)

/-- `s.startswith(pre)` — computed on the character lists so that proofs can
evaluate it by kernel reduction. -/
def strStartsWith (s pre : String) : Bool :=
  pre.toList.isPrefixOf s.toList

/-- `s.endswith(suf)`. -/
def strEndsWith (s suf : String) : Bool :=
  suf.toList.isSuffixOf s.toList

/-- Split a character list on a separator character; always non-empty,
mirroring Python's `s.split(sep)` for a one-character separator. -/
def splitCharList (sep : Char) : List Char → List (List Char)
  | [] => [[]]
  | c :: rest =>
    match splitCharList sep rest with
    | [] => if c = sep then [[], []] else [[c]]
    | g :: gs => if c = sep then [] :: g :: gs else (c :: g) :: gs

/-- Python `s.split(sep)` for a one-character separator. -/
def pySplit (s : String) (sep : Char) : List String :=
  (splitCharList sep s.toList).map String.mk

/-- Join a list of strings with a separator, `sep.join(l)`. -/
def joinWith (sep : String) : List String → String
  | [] => ""
  | [s] => s
  | s :: t :: rest => sappend s (sappend sep (joinWith sep (t :: rest)))

/-- Python 2 `str.strip()` whitespace set. -/
def isPySpace (c : Char) : Bool :=
  c = ' ' || c = '\t' || c = '\n' || c = '\x0d' || c = '\x0b' || c = '\x0c'

/-- Python `s.strip()`. -/
def pyStrip (s : String) : String :=
  String.mk (((s.toList.dropWhile isPySpace).reverse.dropWhile isPySpace).reverse)

/-- One step of the component loop of `posixpath.normpath` (Python 2):
`new_comps` is the accumulator, `comp` the next path component. -/
def normpathStep (initialSlashes : Nat) (newComps : List String) (comp : String) :
    List String :=
  if comp = "" || comp = "." then newComps
  else if comp ≠ ".." || (initialSlashes = 0 && newComps.isEmpty)
          || (!newComps.isEmpty && newComps.getLast? = some "..") then
    newComps ++ [comp]
  else if !newComps.isEmpty then newComps.dropLast
  else newComps

/-- `os.path.normpath` on POSIX, as implemented in Python 2's `posixpath`. -/
def normpath (path : String) : String :=
  if path = "" then "." else
  let initialSlashes : Nat :=
    if strStartsWith path "/" then
      if strStartsWith path "//" && !strStartsWith path "///" then 2 else 1
    else 0
  let comps := pySplit path '/'
  let newComps := comps.foldl (normpathStep initialSlashes) []
  let joined := sappend (String.mk (List.replicate initialSlashes '/'))
                (joinWith "/" newComps)
  if joined = "" then "." else joined

/-- `IDEController.CHANGE_ADD_TYPE`. -/
def CHANGE_ADD_TYPE : Int := 1
/-- `IDEController.CHANGE_REMOVE_TYPE`. -/
def CHANGE_REMOVE_TYPE : Int := -1

/-- `IDEController.is_valid_path`: the argument is a string, equals
`normpath(strip(path) or '/')`, starts with `/` and does not end with `/`. -/
def is_valid_path (path : JVal) : Bool :=
  match path with
  | JVal.jstr s =>
      let stripped := pyStrip s
      let arg := if stripped = "" then "/" else stripped
      s = normpath arg && strStartsWith s "/" && !strEndsWith s "/"
  | _ => false

/-- Validity of one element of the change array in `IDEController.is_valid_changes`. -/
def is_valid_change (c : JVal) : Bool :=
  match c with
  | JVal.jdict fs =>
      (match dictGet fs "type" with
       | some (JVal.jint t) =>
           ((t = CHANGE_ADD_TYPE &&
             (match dictGet fs "content" with
              | some (JVal.jstr _) => true
              | _ => false)) ||
            (t = CHANGE_REMOVE_TYPE &&
             (match dictGet fs "count" with
              | some (JVal.jint n) => decide (0 ≤ n)
              | _ => false)))
       | _ => false) &&
      (match dictGet fs "pos" with
       | some (JVal.jint p) => decide (0 ≤ p)
       | _ => false) &&
      keyCount fs = 3
  | _ => false

/-- `IDEController.is_valid_changes`: a list whose members all pass
`is_valid_change`. -/
def is_valid_changes (changes : JVal) : Bool :=
  match changes with
  | JVal.jlist l => l.all is_valid_change
  | _ => false

example : is_valid_path (JVal.jstr "/a.txt") = true := by decide
example : is_valid_path (JVal.jstr "a.txt") = false := by decide
example : is_valid_path (JVal.jstr "/a/../b") = false := by decide
example : is_valid_path (JVal.jstr "/a/b") = true := by decide
example : is_valid_path (JVal.jstr "/a/") = false := by decide
example : is_valid_changes (JVal.jlist
  [JVal.jdict [("type", JVal.jint 1), ("pos", JVal.jint 0),
               ("content", JVal.jstr "hi")]]) = true := by decide
example : is_valid_changes (JVal.jlist
  [JVal.jdict [("type", JVal.jint (-1)), ("pos", JVal.jint 2),
               ("count", JVal.jint 3)]]) = true := by decide
example : is_valid_changes (JVal.jlist
  [JVal.jdict [("type", JVal.jint 2), ("pos", JVal.jint 0),
               ("content", JVal.jstr "hi")]]) = false := by decide

/-! ## Core data model (`src/app/python/core.py`) -/

/-- `Core.Change = namedtuple('Change', ['pos', 'data', 'is_add'])`.
`data` is the inserted content when `is_add` is true and the deletion count
when false; its dynamic type is kept as a `JVal`. -/
structure Change where
  pos : Int
  data : JVal
  is_add : Bool

/-- One pending modification inside the edit buffer: the
`libZoneTransit.Addition`/`Removal` built in `Core._task_file_edit` from a
`Change` plus the author. -/
structure PendingMod where
  pos : Int
  data : JVal
  author : String
  is_add : Bool

/-- Modelled from the spec: `libZoneTransit.TransitZone` (imported as
`EditBuffer`) is a C++ extension whose source is not part of this repository.
Per spec §4.1 it holds the applied text `content`, the ordered `pending`
queue, and the per-file `version` counter. -/
structure EditBuffer where
  content : String
  pending : List PendingMod
  version : Nat

/-- Modelled from the spec: applying one change to the committed text
(spec §4.1). An addition inserts its data between `content[pos-1]` and
`content[pos]`, with `pos` clamped to the length; a removal deletes `count`
characters starting at `pos`, with the count clamped to the end of the text. -/
def applyMod (content : String) (m : PendingMod) : String :=
  let cs := content.toList
  let p := min m.pos.toNat cs.length
  if m.is_add then
    let ins := match m.data with
      | JVal.jstr s => s.toList
      | _ => []
    String.mk (cs.take p ++ ins ++ cs.drop p)
  else
    let cnt := match m.data with
      | JVal.jint n => n.toNat
      | _ => 0
    String.mk (cs.take p ++ cs.drop (p + cnt))

namespace EditBuffer

/-- Modelled from the spec: `TransitZone.add` appends the bundled
modifications to the pending queue (spec §4.1 `append`). -/
def add (b : EditBuffer) (mods : List PendingMod) : EditBuffer :=
  { b with pending := b.pending ++ mods }

/-- Modelled from the spec: `TransitZone.isEmpty` is true iff the pending
queue has no entries. -/
def isEmpty (b : EditBuffer) : Bool :=
  b.pending.isEmpty

/-- Modelled from the spec: `TransitZone.writeModifications` (spec §4.1
`flush`) drains the entire pending queue, applies each change in queue
order, increments `version` by 1, and returns the new version together with
the applied changes in apply order. -/
def writeModifications (b : EditBuffer) :
    (Nat × List PendingMod) × EditBuffer :=
  ((b.version + 1, b.pending),
   { content := b.pending.foldl applyMod b.content,
     pending := [],
     version := b.version + 1 })

end EditBuffer

/-- `Core.FileUserPair = namedtuple('FileUserPair', ['file', 'users'])`.
The Python `set` of registered users is modelled as a duplicate-free list. -/
structure FileUserPair where
  file : EditBuffer
  users : List String

/-- Python `set.add`. -/
def setAdd (l : List String) (u : String) : List String :=
  if u ∈ l then l else l ++ [u]

/-- Python `set.discard`. -/
def setDiscard (l : List String) (u : String) : List String :=
  l.filter (fun x => x ≠ u)

/-- The state of a `Core` instance that the studied operations touch:
the `path -> FileUserPair` dictionary (modelled as an association list in
insertion order), the project name, the temp directory, and the directory
paths that `get_existing_dirs` reports from the on-disk source tree. -/
structure CoreState where
  project_name : String
  tmp_path : String
  dirs_on_disk : List String
  project_files : List (String × FileUserPair)

/-- Dictionary lookup, `self._project_files[path]` / `path in self._project_files`. -/
def lookupFile (files : List (String × FileUserPair)) (path : String) :
    Option FileUserPair :=
  match files with
  | [] => none
  | (k, v) :: rest => if k = path then some v else lookupFile rest path

/-- In-place update of an existing dictionary entry (a Python task mutates
the `FileUserPair`'s members through the stored reference, leaving the
dictionary's key structure unchanged). -/
def updateFile (files : List (String × FileUserPair)) (path : String)
    (v : FileUserPair) : List (String × FileUserPair) :=
  match files with
  | [] => []
  | (k, v') :: rest =>
    if k = path then (k, v) :: rest else (k, v') :: updateFile rest path v

/-- `Core._task_file_edit` (core.py lines 373-391): when the path is in the
project dictionary, bundle the changes — `Addition` for `is_add`, `Removal`
otherwise, each tagged with the encoded author — and append the bundle to the
file's transit zone; when the path is absent, do nothing. -/
def _task_file_edit (st : CoreState) (path : String) (changes : List Change)
    (user : String) : CoreState :=
  let author := user
  match lookupFile st.project_files path with
  | none => st
  | some e =>
    let bundle := changes.map (fun c =>
      PendingMod.mk c.pos c.data author c.is_add)
    { st with project_files :=
        updateFile st.project_files path { e with file := e.file.add bundle } }

/-- The `notify_file_edit` event routed from `Core._inner_task_apply_changes`:
path, applied changes, new version, and the snapshot of registered users. -/
structure EditNotification where
  path : String
  changes : List PendingMod
  version : Nat
  users : List String

/-- `Core._impl_get_file_content` (core.py lines 476-482): for a registered
path the reply is the tuple `(path, content, 0)` — the version component is
the literal `0` written in the source — and `None` otherwise. -/
def _impl_get_file_content (st : CoreState) (path : String) :
    Option (String × String × Nat) :=
  match lookupFile st.project_files path with
  | some e => some (path, e.file.content, 0)
  | none => none

/-- `Core._inner_task_apply_changes` (core.py lines 404-426): when the path is
registered, drain the buffer with `writeModifications` and emit one
`notify_file_edit` event carrying the applied changes, the new version and a
deepcopy of the registered users. -/
def _inner_task_apply_changes (st : CoreState) (path : String) :
    CoreState × List EditNotification :=
  match lookupFile st.project_files path with
  | none => (st, [])
  | some e =>
    let r := e.file.writeModifications
    let version := r.1.1
    let changes := r.1.2
    let users_registered := e.users
    ({ st with project_files :=
         updateFile st.project_files path { e with file := r.2 } },
     [EditNotification.mk path changes version users_registered])

/-- `Core.task_check_apply_notify` (core.py lines 393-401): the critical
sweep visits every file of the project dictionary and applies the pending
modifications of each non-empty buffer, collecting the emitted notifications. -/
def task_check_apply_notify (st : CoreState) : CoreState × List EditNotification :=
  (st.project_files.map Prod.fst).foldl
    (fun acc path =>
      match lookupFile acc.1.project_files path with
      | some e =>
        if e.file.isEmpty then acc
        else
          let r := _inner_task_apply_changes acc.1 path
          (r.1, acc.2 ++ r.2)
      | none => acc)
    (st, [])

/-- `Core._create_file` (core.py lines 170-181). -/
def _create_file (content : String := "") : FileUserPair :=
  FileUserPair.mk (EditBuffer.mk content [] 0) []

/-- The reply event `notify_get_file_content(result, caller)`. -/
structure ContentNotification where
  result : Option (String × String × Nat)
  caller : String

/-- `Core._task_get_file_content` (core.py lines 306-320). -/
def _task_get_file_content (st : CoreState) (path caller : String) :
    ContentNotification :=
  ContentNotification.mk (_impl_get_file_content st path) caller

/-- `Core._task_open_file` (core.py lines 322-343): create the file when it
does not exist, add the user to its registered set, and reply with the file
content to that user. -/
def _task_open_file (st : CoreState) (user path : String) :
    CoreState × ContentNotification :=
  let files :=
    match lookupFile st.project_files path with
    | none => st.project_files ++ [(path, _create_file)]
    | some _ => st.project_files
  let files2 :=
    match lookupFile files path with
    | some e => updateFile files path { e with users := setAdd e.users user }
    | none => files
  let st2 := { st with project_files := files2 }
  (st2, ContentNotification.mk (_impl_get_file_content st2 path) user)

/-! ## Project nodes and archive creation -/

/-- Python 2 string comparison, lexicographic on the character sequence. -/
def charListLt : List Char → List Char → Bool
  | [], [] => false
  | [], _ :: _ => true
  | _ :: _, [] => false
  | a :: as, b :: bs => if a < b then true else if b < a then false else charListLt as bs

/-- Python 2 comparison of `(str, bool)` tuples: by string, then
`False < True`. -/
def nodeLt (a b : String × Bool) : Bool :=
  charListLt a.1.toList b.1.toList || (a.1 = b.1 && (!a.2 && b.2))

/-- The `≤` used by a stable ascending sort built on `nodeLt`. -/
def nodeLe (a b : String × Bool) : Bool := !nodeLt b a

/-- Stable insertion into a sorted node list. -/
def insertSorted (x : String × Bool) : List (String × Bool) → List (String × Bool)
  | [] => [x]
  | y :: ys => if nodeLe x y then x :: y :: ys else y :: insertSorted x ys

/-- `list.sort()` on node tuples: a stable ascending sort. -/
def sortNodes (l : List (String × Bool)) : List (String × Bool) :=
  l.foldr insertSorted []

/-- `Core._impl_get_project_nodes` (core.py lines 470-474): directories
found on disk flagged `true` plus every file of the project dictionary
flagged `false`, sorted. -/
def _impl_get_project_nodes (st : CoreState) : List (String × Bool) :=
  sortNodes ((st.dirs_on_disk.map (fun d => (d, true))) ++
             (st.project_files.map (fun p => (p.1, false))))

/-- The nested-directory prefix of every archive member,
`archive_root_dir = "/{0}".format(path.split("/")[-1] or project name)`
(core.py line 445). -/
def archiveRootDir (st : CoreState) (path : String) : String :=
  let lastComp := ((pySplit path '/').getLast?).getD ""
  sappend "/" (if lastComp = "" then st.project_name else lastComp)

/-- `Core._task_create_archive` (core.py lines 428-463): the archive is
written to `os.path.join(tmp_dir, "<project>-<caller>.zip")`; its members are
the non-directory project nodes whose path starts with `path`, each stored
under `archive_root_dir + node` with the content reported by
`_impl_get_file_content` (the committed buffer content, not read from disk);
the archive path is put on the one-shot response queue.
The result is the list of `(archive member name, member content)` pairs
written into the ZIP, together with the value put on the response queue. -/
def _task_create_archive (st : CoreState) (path caller : String) :
    List (String × String) × String :=
  let archive_name := sappend st.project_name (sappend "-" (sappend caller ".zip"))
  let archive_path := sappend st.tmp_path (sappend "/" archive_name)
  let archive_root_dir := archiveRootDir st path
  let archive_nodes := ((_impl_get_project_nodes st).filter
      (fun nd => !nd.2 && strStartsWith nd.1 path)).map Prod.fst
  let entries := archive_nodes.filterMap (fun node =>
    match _impl_get_file_content st node with
    | some r => some (sappend archive_root_dir node, r.2.1)
    | none => none)
  (entries, archive_path)

/-! ## The scheduler (`CoreThread.run`, core.py lines 533-611)

`datetime.now()` is modelled by an explicit list of clock readings, one per
iteration of the inner while loop (the readings taken inside one iteration
are modelled as equal). Durations and instants are in microseconds. -/

/-- A queued task as the admission control sees it: an identifier and the
worst-case duration declared through the `task_time` decorator. -/
structure STask where
  id : Nat
  worstCase : Nat
  deriving DecidableEq

/-- The non-critical phase of one cycle (core.py lines 576-598).
`while now < deadline`: take the head task (an empty queue models the
blocking `get` timing out, after which the loop re-checks its condition);
execute it only if `now + task.worstCase < deadline`, otherwise put it back
at the tail of the queue and leave the phase. Returns the executed tasks in
execution order and the queue left for the next cycle. -/
def runNC (deadline : Nat) : List Nat → List STask → List STask × List STask
  | [], q => ([], q)
  | now :: rest, [] =>
    if deadline ≤ now then ([], []) else runNC deadline rest []
  | now :: rest, t :: ts =>
    if deadline ≤ now then ([], t :: ts)
    else if now + t.worstCase < deadline then
      let r := runNC deadline rest ts
      (t :: r.1, r.2)
    else
      ([], ts ++ [t])

/-- Observable outcome of one full scheduler cycle. -/
structure CycleResult where
  executed : List STask
  queueAfter : List STask
  criticalRuns : Nat
  warned : Bool

/-- One cycle of `CoreThread.run` (core.py lines 574-610): the non-critical
phase followed by the critical phase, which runs `task_check_apply_notify`
exactly when `now + its worst case < deadline_crit` and otherwise prints the
warning. `critNow` is the clock reading taken at line 602. -/
def runCycle (ncTimes : List Nat) (deadlineNC critNow sweepWC deadlineCrit : Nat)
    (queue : List STask) : CycleResult :=
  let r := runNC deadlineNC ncTimes queue
  if critNow + sweepWC < deadlineCrit then
    CycleResult.mk r.1 r.2 1 false
  else
    CycleResult.mk r.1 r.2 0 true

/-! ## Boot-time filesystem work (`Core.__init__`, core.py lines 78-91) -/

/-- A POSIX filesystem fragment: absolute paths of regular files and of
directories. -/
structure Fs where
  files : List String
  dirs : List String

/-- `os.path.exists`. -/
def pathExists (fs : Fs) (p : String) : Bool :=
  fs.files.contains p || fs.dirs.contains p

/-- `os.makedirs`: create the directory and any missing ancestors. -/
def makedirs (fs : Fs) (p : String) : Fs :=
  let comps := (pySplit p '/').filter (fun c => c ≠ "")
  let created := (List.range comps.length).map (fun i =>
    sappend "/" (joinWith "/" (comps.take (i + 1))))
  { fs with dirs := fs.dirs ++ created.filter (fun q => !fs.dirs.contains q) }

/-- `os.listdir d`: base names of the immediate children of `d`. -/
def listdir (fs : Fs) (d : String) : List String :=
  (fs.files ++ fs.dirs).filterMap (fun p =>
    if strStartsWith p (sappend d "/") then
      let rest := String.mk (p.toList.drop (d.toList.length + 1))
      if rest.toList.contains '/' || rest = "" then none else some rest
    else none)

/-- `os.unlink`. -/
def unlink (fs : Fs) (p : String) : Fs :=
  { fs with files := fs.files.filter (fun q => q ≠ p) }

/-- `shutil.rmtree`: remove the directory and everything below it. -/
def rmtree (fs : Fs) (p : String) : Fs :=
  Fs.mk
    (fs.files.filter (fun q => !strStartsWith q (sappend p "/")))
    (fs.dirs.filter (fun q => q ≠ p && !strStartsWith q (sappend p "/")))

/-- Resolution of a relative name against a directory: `os.path.isfile` and
friends interpret a bare name relative to the process working directory. -/
def resolveRel (cwd name : String) : String :=
  sappend cwd (sappend "/" name)

/-- First half of the boot filesystem work (core.py lines 78-85): create each
of the five configured directories when absent. -/
def coreInitDirs (fs : Fs) (ds : List String) : Fs :=
  ds.foldl (fun acc d => if pathExists acc d then acc else makedirs acc d) fs

/-- Second half of the boot filesystem work (core.py lines 87-91): iterate
over `os.listdir(tmp)` and call `os.path.isfile(node)` / `os.unlink(node)` /
`shutil.rmtree(node)` on the *bare name*, which the OS resolves against the
process working directory `cwd`, not against `tmp`. -/
def coreInitClearTmp (fs : Fs) (cwd tmp : String) : Fs :=
  (listdir fs tmp).foldl
    (fun acc node =>
      let p := resolveRel cwd node
      if acc.files.contains p then unlink acc p
      else if acc.dirs.contains p then rmtree acc p
      else acc)
    fs

/-- The filesystem effect of `Core.__init__` (core.py lines 78-91): ensure
the base, source, backup, exec and temp directories exist, then run the
temp-clearing loop. -/
def core_init_fs (fs : Fs) (cwd basePath srcPath backupPath execPath tmpPath : String) : Fs :=
  coreInitClearTmp
    (coreInitDirs fs [basePath, srcPath, backupPath, execPath, tmpPath])
    cwd tmpPath

/-! ## Listener registry (`Core.register_application_listener`,
core.py lines 494-520) -/

/-- The listener list and the currently installed notification strategy.
The strategy object (`cide/app/python/utils/strategies`, not under study) is
kept abstract: only the effect of its `upgrade_strategy`/`downgrade_strategy`
callbacks matters here. -/
structure ListenerState (L S : Type) where
  core_listeners : List L
  strategy : S

/-- `Core.register_application_listener` (lines 494-502): append the
listener and upgrade the strategy only when the listener is not already in
the list. -/
def register_application_listener {L S : Type} [DecidableEq L]
    (upgrade : S → S) (st : ListenerState L S) (listener : L) :
    ListenerState L S :=
  if listener ∈ st.core_listeners then st
  else ListenerState.mk (st.core_listeners ++ [listener]) (upgrade st.strategy)

/-- `Core.unregister_application_listener` (lines 504-512): remove the
listener and downgrade the strategy only when the listener is in the list. -/
def unregister_application_listener {L S : Type} [DecidableEq L]
    (downgrade : S → S) (st : ListenerState L S) (listener : L) :
    ListenerState L S :=
  if listener ∈ st.core_listeners then
    ListenerState.mk (st.core_listeners.erase listener) (downgrade st.strategy)
  else st

/-! ## The IDE controller (`src/server/ideController.py`) -/

/-- The placeholder text hardcoded at ideController.py lines 397-399. -/
def temp_message : String :=
  "Temp msg from controller until c++ module will return applied modifications"

/-- One element of the `changes` array of the WS payload built by
`create_file_version_dict`. -/
structure WirePayloadChange where
  ctype : Int
  pos : Int
  content : String
  deriving DecidableEq

/-- A message sent over a user's WebSocket by `_save_callback`. -/
structure WsMessage where
  user : String
  file : String
  vers : Nat
  changes : List WirePayloadChange
  deriving DecidableEq

/-- `IDEController._save_callback` (ideController.py lines 380-420): the
applied changes received from the core are discarded — line 399 rebinds
`changes` to a hardcoded one-element placeholder list — and the resulting
payload is sent to every user of the snapshot that has an open WebSocket;
a user without one is unregistered from the file (second component). -/
def _save_callback (filename : String) (changes : List PendingMod)
    (version : Nat) (users : List String) (wsClients : List String) :
    List WsMessage × List (String × String) :=
  let changes := [WirePayloadChange.mk CHANGE_ADD_TYPE 0 temp_message]
  (users.filterMap (fun u =>
     if u ∈ wsClients then some (WsMessage.mk u filename version changes) else none),
   users.filterMap (fun u =>
     if u ∈ wsClients then none else some (u, filename)))

/-- The wire image that the documented `/ide/save` WS format (ideController.py
lines 236-245) prescribes for one applied modification: `type` 1 for an
insertion with its content, `type` -1 for a deletion with its count. -/
def wireOfMod (m : PendingMod) : WirePayloadChange :=
  WirePayloadChange.mk
    (if m.is_add then CHANGE_ADD_TYPE else CHANGE_REMOVE_TYPE)
    m.pos
    (match m.data with
     | JVal.jstr s => s
     | JVal.jint n => toString n
     | _ => "")

/-- Outcome of the `PUT /save` handler. -/
inductive SaveOutcome where
  | badRequest (arg : JVal)
  | raisedTypeError

/-- The element-wise translation performed by the comprehension at
ideController.py lines 270-274: `pos` from `c['pos']`, the data from
`c.get('content') or c.get('count')` (Python `or` on possibly-falsy values),
and `is_add` from `c['type'] == CHANGE_ADD_TYPE`. The fallback arms are
unreachable because the comprehension runs only on validated changes. -/
def saveWireChange (c : JVal) : Change :=
  match c with
  | JVal.jdict fs =>
    let posv := match dictGet fs "pos" with
      | some (JVal.jint p) => p
      | _ => 0
    let dat := let a := pyGet fs "content"
               if a.truthy then a else pyGet fs "count"
    let tv := match dictGet fs "type" with
      | some (JVal.jint t) => t
      | _ => 0
    Change.mk posv dat (tv = CHANGE_ADD_TYPE)
  | _ => Change.mk 0 JVal.jnull false

/-- Number of parameters after `self` in the declaration
`def file_edit(self, path, changes, caller)` (core.py line 255). -/
def fileEditParamCount : Nat := 3

/-- Number of arguments passed at the call
`self._app.file_edit(filename, [...])` (ideController.py lines 270-274). -/
def saveFileEditArgCount : Nat := 2

/-- `IDEController.save` (ideController.py lines 216-280). On a request that
fails validation the handler returns the `{code: 400, ...}` payload built by
`create_argument_error_msg` and calls nothing on the core. On a validated
request it evaluates the change-list comprehension and then calls
`self._app.file_edit(filename, changeList)` — two arguments for the three
required parameters of `Core.file_edit`, so Python raises `TypeError` before
any task is enqueued. -/
def save (filename changes : JVal) : SaveOutcome :=
  if is_valid_path filename then
    if is_valid_changes changes then SaveOutcome.raisedTypeError
    else SaveOutcome.badRequest changes
  else SaveOutcome.badRequest filename

/-- Outcome of the `POST /open` handler. -/
inductive OpenOutcome where
  | badRequest (arg : JVal)
  | raisedAttributeError

/-- The attribute names a `Core` instance exposes (every method defined in
class `Core`, core.py lines 40-530), modelling Python attribute lookup for
calls of the form `self._app.<name>`. -/
def coreMethodNames : List String :=
  ["start", "stop", "get_project_name", "add_file", "delete_file",
   "_add_task", "_create_file", "get_project_nodes", "get_file_content",
   "open_file", "unregister_user_to_file", "unregister_user_to_all_files",
   "file_edit", "create_archive", "_task_get_project_nodes",
   "_task_get_file_content", "_task_open_file",
   "_task_unregister_user_to_file", "_task_unregister_user_to_all_files",
   "_task_file_edit", "task_check_apply_notify",
   "_inner_task_apply_changes", "_task_create_archive",
   "_impl_get_project_nodes", "_impl_get_file_content",
   "register_application_listener", "unregister_application_listener",
   "_change_core_strategy", "_notify_event"]

/-- `IDEController.open` (ideController.py lines 128-178). On an invalid path
the handler returns the 400 payload. On a valid path it first evaluates
`self._app.register_user_to_file(username, filename)`; class `Core` defines
no attribute of that name, so Python raises `AttributeError` — no task
reaches the core and no reply is produced. -/
def openHandler (filename : JVal) : OpenOutcome :=
  if is_valid_path filename then OpenOutcome.raisedAttributeError
  else OpenOutcome.badRequest filename

/-! ## Concrete states used by witnesses and counterexamples -/

/-- A core state with one registered file `/a.txt` whose buffer holds the
text `x`, no pending modification, version 0, and subscriber `A`. -/
def stOneFile : CoreState :=
  CoreState.mk "proj" "/tmp" []
    [("/a.txt", FileUserPair.mk (EditBuffer.mk "x" [] 0) ["A"])]

/-- The state reached from an empty `/a.txt` subscribed to by `A` after user
`A` enqueues the single insertion `Change(pos=0, data="hi", is_add=True)`. -/
def editedOnce : CoreState :=
  _task_file_edit
    (CoreState.mk "proj" "/tmp" []
      [("/a.txt", FileUserPair.mk (EditBuffer.mk "" [] 0) ["A"])])
    "/a.txt" [Change.mk 0 (JVal.jstr "hi") true] "A"

/-- A core state whose file `/a.txt` has one pending insertion not yet
flushed. -/
def pendingOneEdit : CoreState :=
  CoreState.mk "proj" "/tmp" []
    [("/a.txt", FileUserPair.mk
        (EditBuffer.mk "" [PendingMod.mk 0 (JVal.jstr "hi") "A" true] 0) ["A"])]

/-- `pendingOneEdit` after one critical application of `/a.txt`'s pending
queue. -/
def afterFlush : CoreState := (_inner_task_apply_changes pendingOneEdit "/a.txt").1

/-- A validated `/save` change list: one insertion of `"hi"` at position 0. -/
def saveBodyChanges : JVal :=
  JVal.jlist [JVal.jdict
    [("type", JVal.jint 1), ("pos", JVal.jint 0), ("content", JVal.jstr "hi")]]

/-- A filesystem before boot: temp directory `/t` containing the stale file
`stale.zip`, and a working directory `/home` that happens to hold a file of
the same base name. -/
def bootFs : Fs := Fs.mk ["/t/stale.zip", "/home/stale.zip"] ["/t", "/home"]

/-- `bootFs` after the boot-time filesystem work of `Core.__init__` with
working directory `/home`, the five configured directories being
`/pb /ps /pk /pe /t`. -/
def bootFsAfter : Fs := core_init_fs bootFs "/home" "/pb" "/ps" "/pk" "/pe" "/t"

/-- A project with two files, only one of which lies under `/src`, plus the
on-disk directory node `/src`. -/
def archiveState : CoreState :=
  CoreState.mk "proj" "/tmp" ["/src"]
    [("/src/a.txt", FileUserPair.mk (EditBuffer.mk "A" [] 0) []),
     ("/doc/b.txt", FileUserPair.mk (EditBuffer.mk "B" [] 0) [])]

/-! ## Theorems -/

/-- C3: in every non-critical phase, a dequeued task is executed only when
the clock reading plus its declared worst-case duration is strictly below
the non-critical deadline; a task that does not fit is re-inserted at the
tail of the queue and the phase exits at once, executing nothing further. -/
theorem nonCritical_admission_control :
    (∀ (deadline : Nat) (times : List Nat) (q : List STask) (t : STask),
        t ∈ (runNC deadline times q).1 →
        ∃ now ∈ times, now < deadline ∧ now + t.worstCase < deadline)
    ∧ (∀ (deadline now : Nat) (rest : List Nat) (t : STask) (ts : List STask),
        now < deadline → ¬ now + t.worstCase < deadline →
        runNC deadline (now :: rest) (t :: ts) = ([], ts ++ [t])) := by
  constructor
  · intro deadline times
    induction times with
    | nil =>
      intro q t ht
      simp [runNC] at ht
    | cons now rest ih =>
      intro q t ht
      cases q with
      | nil =>
        rw [runNC] at ht
        by_cases h1 : deadline ≤ now
        · simp [h1] at ht
        · rw [if_neg h1] at ht
          obtain ⟨n, hn, h⟩ := ih [] t ht
          exact ⟨n, List.mem_cons_of_mem _ hn, h⟩
      | cons t' ts =>
        rw [runNC] at ht
        by_cases h1 : deadline ≤ now
        · simp [h1] at ht
        · rw [if_neg h1] at ht
          by_cases h2 : now + t'.worstCase < deadline
          · rw [if_pos h2] at ht
            rcases List.mem_cons.mp ht with rfl | ht'
            · exact ⟨now, List.mem_cons_self _ _, Nat.lt_of_not_le h1, h2⟩
            · obtain ⟨n, hn, h⟩ := ih ts t ht'
              exact ⟨n, List.mem_cons_of_mem _ hn, h⟩
          · simp [h2] at ht
  · intro deadline now rest t ts h1 h2
    rw [runNC, if_neg (Nat.not_le.mpr h1), if_neg h2]

/-- Witness for `nonCritical_admission_control` at concrete inputs: a task of
worst case 5 executed before deadline 10 is admitted at a clock reading that
fits, and a task of worst case 20 at clock 0 is re-queued at the tail while
the phase exits. -/
theorem nonCritical_admission_control_witness :
    (∃ now ∈ [0, 6], now < 10 ∧ now + (STask.mk 1 5).worstCase < 10)
    ∧ runNC 10 (0 :: [6]) (STask.mk 1 20 :: [STask.mk 2 1])
        = ([], [STask.mk 2 1] ++ [STask.mk 1 20]) := by
  constructor
  · exact nonCritical_admission_control.1 10 [0, 6] [STask.mk 1 5]
      (STask.mk 1 5) (by decide)
  · exact nonCritical_admission_control.2 10 0 [6] (STask.mk 1 20)
      [STask.mk 2 1] (by decide) (by decide)

/-- C4: in every cycle the critical sweep runs at most once, it runs exactly
when the clock reading plus its declared worst case is strictly below the
critical deadline, and otherwise it is skipped with a warning. -/
theorem critical_sweep_once_per_cycle :
    ∀ (ncTimes : List Nat) (deadlineNC critNow sweepWC deadlineCrit : Nat)
      (queue : List STask),
      (runCycle ncTimes deadlineNC critNow sweepWC deadlineCrit queue).criticalRuns ≤ 1
      ∧ ((runCycle ncTimes deadlineNC critNow sweepWC deadlineCrit queue).criticalRuns = 1
          ↔ critNow + sweepWC < deadlineCrit)
      ∧ ((runCycle ncTimes deadlineNC critNow sweepWC deadlineCrit queue).warned = true
          ↔ ¬ critNow + sweepWC < deadlineCrit) := by
  intro ncTimes deadlineNC critNow sweepWC deadlineCrit queue
  unfold runCycle
  by_cases h : critNow + sweepWC < deadlineCrit <;> simp [h]

/-- C7: executing the file-edit task for a path that is not in the project
dictionary leaves the core state — every entry's content, pending queue,
version and subscriber set — unchanged. -/
theorem file_edit_absent_path_noop :
    ∀ (st : CoreState) (path : String) (changes : List Change) (user : String),
      lookupFile st.project_files path = none →
      _task_file_edit st path changes user = st := by
  intro st path changes user h
  unfold _task_file_edit
  rw [h]

/-- Witness for `file_edit_absent_path_noop`: editing the unregistered path
`/b.txt` in a state registering only `/a.txt` changes nothing. -/
theorem file_edit_absent_path_noop_witness :
    lookupFile stOneFile.project_files "/b.txt" = none
    ∧ _task_file_edit stOneFile "/b.txt" [Change.mk 0 (JVal.jstr "hi") true] "A"
        = stOneFile :=
  ⟨rfl, file_edit_absent_path_noop stOneFile "/b.txt"
          [Change.mk 0 (JVal.jstr "hi") true] "A" rfl⟩

/-- C10: registering an already-registered application listener leaves the
listener list and the installed strategy unchanged, and unregistering an
absent listener is likewise a no-op triggering no strategy downgrade. -/
theorem listener_registration_idempotent :
    ∀ (L S : Type) (inst : DecidableEq L) (upgrade downgrade : S → S)
      (st : ListenerState L S) (listener : L),
      (listener ∈ st.core_listeners →
        register_application_listener upgrade st listener = st)
      ∧ (listener ∉ st.core_listeners →
        unregister_application_listener downgrade st listener = st) := by
  intro L S inst upgrade downgrade st listener
  constructor
  · intro h
    unfold register_application_listener
    rw [if_pos h]
  · intro h
    unfold unregister_application_listener
    rw [if_neg h]

/-- Witness for `listener_registration_idempotent`: re-registering the
listener `"a"` and unregistering the absent listener `"b"` both leave the
state `(["a"], strategy 0)` untouched. -/
theorem listener_registration_idempotent_witness :
    register_application_listener Nat.succ (ListenerState.mk ["a"] 0) "a"
      = ListenerState.mk ["a"] 0
    ∧ unregister_application_listener Nat.succ (ListenerState.mk ["a"] 0) "b"
      = ListenerState.mk ["a"] 0 :=
  ⟨(listener_registration_idempotent String Nat inferInstance Nat.succ Nat.succ
      (ListenerState.mk ["a"] 0) "a").1 (by decide),
   (listener_registration_idempotent String Nat inferInstance Nat.succ Nat.succ
      (ListenerState.mk ["a"] 0) "b").2 (by decide)⟩

/-- C1: evaluating the edit pipeline on the single enqueued insertion
`Change(pos=0, data="hi", is_add=True)` to `/a.txt` (subscriber `A`, open
WebSocket). The core-level sweep does emit exactly one `notify_file_edit`
carrying the applied change in order and updates the content to `"hi"`, but
`IDEController._save_callback` — the listener that delivers `onFileEdit` to
the file's subscribers — replaces the applied changes with the hardcoded
placeholder list, so the notification observed by the subscribers does not
carry the enqueued change. -/
theorem save_callback_discards_applied_changes :
    (task_check_apply_notify editedOnce).2
      = [EditNotification.mk "/a.txt"
          [PendingMod.mk 0 (JVal.jstr "hi") "A" true] 1 ["A"]]
    ∧ ((task_check_apply_notify editedOnce).1.project_files.map
        (fun p => (p.1, p.2.file.content))) = [("/a.txt", "hi")]
    ∧ _save_callback "/a.txt" [PendingMod.mk 0 (JVal.jstr "hi") "A" true] 1
        ["A"] ["A"]
      = ([WsMessage.mk "A" "/a.txt" 1 [WirePayloadChange.mk 1 0 temp_message]], [])
    ∧ [PendingMod.mk 0 (JVal.jstr "hi") "A" true].map wireOfMod
      = [WirePayloadChange.mk 1 0 "hi"]
    ∧ [WirePayloadChange.mk 1 0 temp_message] ≠ [WirePayloadChange.mk 1 0 "hi"] :=
  ⟨rfl, rfl, rfl, rfl, by decide⟩

/-- C2: after one flush of `/a.txt`'s pending insertion, the file's per-file
monotonic counter stands at 1, yet the reply built by
`_impl_get_file_content` still carries version 0 — the source hardcodes the
version component — while an absent path does yield the not-found sentinel. -/
theorem get_file_content_version_hardcoded_zero :
    ((lookupFile afterFlush.project_files "/a.txt").map (fun e => e.file.version))
      = some 1
    ∧ _impl_get_file_content afterFlush "/a.txt" = some ("/a.txt", "hi", 0)
    ∧ _impl_get_file_content afterFlush "/missing" = none
    ∧ (0 : Nat) ≠ 1 :=
  ⟨rfl, rfl, rfl, by decide⟩

/-- C5: a `/save` request with the valid path `/a.txt` and a validated change
list passes both validations, after which the handler's two-argument call of
the three-parameter `Core.file_edit` raises `TypeError`: no `fileEdit` task
is enqueued and no author reaches the core. The element-wise translation of
the comprehension and the 400 reply on a failed validation behave as the
claim describes. -/
theorem save_two_argument_file_edit_call :
    is_valid_path (JVal.jstr "/a.txt") = true
    ∧ is_valid_changes saveBodyChanges = true
    ∧ save (JVal.jstr "/a.txt") saveBodyChanges = SaveOutcome.raisedTypeError
    ∧ saveFileEditArgCount < fileEditParamCount
    ∧ saveWireChange (JVal.jdict
        [("type", JVal.jint 1), ("pos", JVal.jint 0), ("content", JVal.jstr "hi")])
      = Change.mk 0 (JVal.jstr "hi") true
    ∧ saveWireChange (JVal.jdict
        [("type", JVal.jint (-1)), ("pos", JVal.jint 2), ("count", JVal.jint 3)])
      = Change.mk 2 (JVal.jint 3) false
    ∧ save (JVal.jstr "bad") saveBodyChanges = SaveOutcome.badRequest (JVal.jstr "bad") :=
  ⟨by decide, by decide, rfl, by decide, rfl, rfl, rfl⟩

/-- C6: an `/open` request with the valid path `/a.txt` reaches the call of
`register_user_to_file`, an attribute class `Core` does not define, so the
handler raises `AttributeError` and the core's `openFile` operation — which,
executed directly, does add the user and reply with the file content — is
never invoked; an invalid path yields the 400 payload. -/
theorem open_handler_attribute_error :
    openHandler (JVal.jstr "/a.txt") = OpenOutcome.raisedAttributeError
    ∧ "register_user_to_file" ∉ coreMethodNames
    ∧ "open_file" ∈ coreMethodNames
    ∧ ((_task_open_file stOneFile "B" "/a.txt").1.project_files.map
        (fun p => (p.1, p.2.users))) = [("/a.txt", ["A", "B"])]
    ∧ (_task_open_file stOneFile "B" "/a.txt").2
      = ContentNotification.mk (some ("/a.txt", "x", 0)) "B"
    ∧ openHandler (JVal.jstr "a.txt") = OpenOutcome.badRequest (JVal.jstr "a.txt") :=
  ⟨rfl, by decide, by decide, rfl, rfl, rfl⟩

/-- C9: booting over `bootFs` creates the four absent configured directories
(and keeps the existing `/t`), but the temp-clearing loop tests the bare
`os.listdir` names against the working directory: the stale file inside
`/t` survives — the temp directory is *not* left empty — while the
same-named file in the working directory `/home` is deleted instead. -/
theorem boot_tmp_clear_misses_tmp_entries :
    ("/pb" ∈ bootFsAfter.dirs ∧ "/ps" ∈ bootFsAfter.dirs
      ∧ "/pk" ∈ bootFsAfter.dirs ∧ "/pe" ∈ bootFsAfter.dirs
      ∧ "/t" ∈ bootFsAfter.dirs)
    ∧ "/t/stale.zip" ∈ bootFsAfter.files
    ∧ listdir bootFsAfter "/t" ≠ []
    ∧ "/home/stale.zip" ∉ bootFsAfter.files := by decide

/-! ### Supporting lemmas for the archive claim -/

theorem mem_insertSorted {y x : String × Bool} {l : List (String × Bool)} :
    y ∈ insertSorted x l ↔ y = x ∨ y ∈ l := by
  induction l with
  | nil => simp [insertSorted]
  | cons z zs ih =>
    rw [insertSorted]
    split
    · simp
    · simp only [List.mem_cons, ih]
      tauto

theorem mem_sortNodes {y : String × Bool} {l : List (String × Bool)} :
    y ∈ sortNodes l ↔ y ∈ l := by
  induction l with
  | nil => simp [sortNodes]
  | cons z zs ih =>
    unfold sortNodes at *
    simp only [List.foldr_cons, mem_insertSorted, List.mem_cons, ih]

theorem lookupFile_mem {files : List (String × FileUserPair)} {path : String}
    {e : FileUserPair} (h : lookupFile files path = some e) : (path, e) ∈ files := by
  induction files with
  | nil => simp [lookupFile] at h
  | cons kv rest ih =>
    obtain ⟨k, v⟩ := kv
    rw [lookupFile] at h
    by_cases hk : k = path
    · rw [if_pos hk] at h
      injection h with h
      subst hk
      subst h
      exact List.mem_cons_self _ _
    · rw [if_neg hk] at h
      exact List.mem_cons_of_mem _ (ih h)

theorem map_fst_updateFile {files : List (String × FileUserPair)} {path : String}
    {v : FileUserPair} :
    (updateFile files path v).map Prod.fst = files.map Prod.fst := by
  induction files with
  | nil => rfl
  | cons kv rest ih =>
    obtain ⟨k, w⟩ := kv
    rw [updateFile]
    by_cases h : k = path
    · rw [if_pos h]
      rfl
    · rw [if_neg h]
      simp [ih]

theorem lookupFile_updateFile_self {files : List (String × FileUserPair)}
    {path : String} {v e : FileUserPair}
    (h : lookupFile files path = some e) :
    lookupFile (updateFile files path v) path = some v := by
  induction files with
  | nil => simp [lookupFile] at h
  | cons kv rest ih =>
    obtain ⟨k, w⟩ := kv
    rw [lookupFile] at h
    rw [updateFile]
    by_cases hk : k = path
    · rw [if_pos hk, lookupFile, if_pos hk]
    · rw [if_neg hk] at h
      rw [if_neg hk, lookupFile, if_neg hk]
      exact ih h

theorem lookupFile_updateFile_ne {files : List (String × FileUserPair)}
    {path q : String} {v : FileUserPair} (h : q ≠ path) :
    lookupFile (updateFile files path v) q = lookupFile files q := by
  induction files with
  | nil => rfl
  | cons kv rest ih =>
    obtain ⟨k, w⟩ := kv
    rw [updateFile]
    by_cases hk : k = path
    · rw [if_pos hk, lookupFile, lookupFile,
          if_neg (fun hkq => h (hkq.symm.trans hk)),
          if_neg (fun hkq => h (hkq.symm.trans hk))]
    · rw [if_neg hk, lookupFile, lookupFile]
      by_cases hkq : k = q
      · rw [if_pos hkq, if_pos hkq]
      · rw [if_neg hkq, if_neg hkq]
        exact ih

theorem impl_get_file_content_map_form (st : CoreState) (q : String) :
    _impl_get_file_content st q
      = (lookupFile st.project_files q).map (fun e => (q, e.file.content, 0)) := by
  unfold _impl_get_file_content
  cases lookupFile st.project_files q <;> rfl

theorem file_edit_preserves_shape (st : CoreState) (p : String) (cs : List Change)
    (u : String) :
    (_task_file_edit st p cs u).project_name = st.project_name
    ∧ (_task_file_edit st p cs u).tmp_path = st.tmp_path
    ∧ (_task_file_edit st p cs u).dirs_on_disk = st.dirs_on_disk
    ∧ (_task_file_edit st p cs u).project_files.map Prod.fst
        = st.project_files.map Prod.fst := by
  unfold _task_file_edit
  cases h : lookupFile st.project_files p
  · exact ⟨rfl, rfl, rfl, rfl⟩
  · exact ⟨rfl, rfl, rfl, map_fst_updateFile⟩

theorem file_edit_preserves_content (st : CoreState) (p : String) (cs : List Change)
    (u : String) (q : String) :
    (lookupFile (_task_file_edit st p cs u).project_files q).map
        (fun e => e.file.content)
      = (lookupFile st.project_files q).map (fun e => e.file.content) := by
  cases h : lookupFile st.project_files p with
  | none => simp [_task_file_edit, h]
  | some e =>
    simp only [_task_file_edit, h]
    by_cases hq : q = p
    · subst hq
      rw [lookupFile_updateFile_self h, h]
      rfl
    · rw [lookupFile_updateFile_ne hq]

theorem filterMapCongrList {α β : Type} (f g : α → Option β) (l : List α)
    (h : ∀ x ∈ l, f x = g x) : l.filterMap f = l.filterMap g := by
  induction l with
  | nil => rfl
  | cons a as ih =>
    rw [List.filterMap_cons, List.filterMap_cons, h a (List.mem_cons_self a as),
        ih (fun x hx => h x (List.mem_cons_of_mem _ hx))]

theorem create_archive_entries (st : CoreState) (path caller : String) :
    (_task_create_archive st path caller).1
      = (((_impl_get_project_nodes st).filter
            (fun nd => !nd.2 && strStartsWith nd.1 path)).map Prod.fst).filterMap
          (fun node => (lookupFile st.project_files node).map
            (fun e => (sappend (archiveRootDir st path) node, e.file.content))) := by
  simp only [_task_create_archive]
  apply filterMapCongrList
  intro node _
  rw [impl_get_file_content_map_form]
  cases lookupFile st.project_files node <;> rfl

theorem archiveRootDir_congr {st st' : CoreState}
    (h : st'.project_name = st.project_name) (path : String) :
    archiveRootDir st' path = archiveRootDir st path := by
  unfold archiveRootDir
  rw [h]

theorem impl_get_project_nodes_congr {st st' : CoreState}
    (hd : st'.dirs_on_disk = st.dirs_on_disk)
    (hk : st'.project_files.map Prod.fst = st.project_files.map Prod.fst) :
    _impl_get_project_nodes st' = _impl_get_project_nodes st := by
  have hpairs : ∀ (l : List (String × FileUserPair)),
      l.map (fun p => (p.1, false)) = (l.map Prod.fst).map (fun k => (k, false)) := by
    intro l
    induction l with
    | nil => rfl
    | cons a as ih => simp [ih]
  unfold _impl_get_project_nodes
  rw [hd, hpairs, hpairs, hk]

theorem create_archive_ignores_pending (st : CoreState) (path caller p : String)
    (cs : List Change) (u : String) :
    _task_create_archive (_task_file_edit st p cs u) path caller
      = _task_create_archive st path caller := by
  obtain ⟨hname, htmp, hdirs, hkeys⟩ := file_edit_preserves_shape st p cs u
  have hroot := archiveRootDir_congr hname path
  have hnodes := impl_get_project_nodes_congr hdirs hkeys
  have h2 : (_task_create_archive (_task_file_edit st p cs u) path caller).2
      = (_task_create_archive st path caller).2 := by
    simp only [_task_create_archive]
    rw [hname, htmp]
  have h1 : (_task_create_archive (_task_file_edit st p cs u) path caller).1
      = (_task_create_archive st path caller).1 := by
    rw [create_archive_entries, create_archive_entries, hnodes, hroot]
    apply filterMapCongrList
    intro node _
    have hc := file_edit_preserves_content st p cs u node
    cases hl : lookupFile (_task_file_edit st p cs u).project_files node with
    | none =>
      cases hl' : lookupFile st.project_files node with
      | none => rfl
      | some e =>
        rw [hl, hl'] at hc
        simp at hc
    | some e =>
      cases hl' : lookupFile st.project_files node with
      | none =>
        rw [hl, hl'] at hc
        simp at hc
      | some e' =>
        rw [hl, hl'] at hc
        simp only [Option.map_some'] at hc ⊢
        injection hc with hc
        rw [hc]
  exact Prod.ext h1 h2

/-- C8: for every `createArchive(path, caller)` request, the executed task
resolves the one-shot future with `<tmp>/<project>-<caller>.zip`, the written
archive contains exactly the non-directory project nodes whose path starts
with `path` — each stored with the committed content of its buffer — and
enqueuing further pending (un-flushed) modifications beforehand leaves the
archive unchanged, since the task reads only the committed content field. -/
theorem create_archive_committed_content :
    ∀ (st : CoreState) (path caller p : String) (cs : List Change) (u : String),
      (_task_create_archive st path caller).2
        = sappend st.tmp_path (sappend "/"
            (sappend st.project_name (sappend "-" (sappend caller ".zip"))))
      ∧ _task_create_archive (_task_file_edit st p cs u) path caller
          = _task_create_archive st path caller
      ∧ (∀ (node : String) (e : FileUserPair),
          lookupFile st.project_files node = some e →
          strStartsWith node path = true →
          (sappend (archiveRootDir st path) node, e.file.content)
            ∈ (_task_create_archive st path caller).1)
      ∧ (∀ (a c : String), (a, c) ∈ (_task_create_archive st path caller).1 →
          ∃ (node : String) (e : FileUserPair),
            lookupFile st.project_files node = some e
            ∧ strStartsWith node path = true
            ∧ a = sappend (archiveRootDir st path) node
            ∧ c = e.file.content) := by
  intro st path caller p cs u
  refine ⟨rfl, create_archive_ignores_pending st path caller p cs u, ?_, ?_⟩
  · intro node e hl hpre
    rw [create_archive_entries]
    apply List.mem_filterMap.mpr
    refine ⟨node, ?_, by rw [hl]; rfl⟩
    apply List.mem_map.mpr
    refine ⟨(node, false), ?_, rfl⟩
    apply List.mem_filter.mpr
    constructor
    · unfold _impl_get_project_nodes
      exact mem_sortNodes.mpr (List.mem_append.mpr (Or.inr
        (List.mem_map.mpr ⟨(node, e), lookupFile_mem hl, rfl⟩)))
    · simp [hpre]
  · intro a c hmem
    rw [create_archive_entries] at hmem
    obtain ⟨node, hnode, heq⟩ := List.mem_filterMap.mp hmem
    cases hl : lookupFile st.project_files node with
    | none =>
      rw [hl] at heq
      simp at heq
    | some e =>
      rw [hl] at heq
      have heq' : (sappend (archiveRootDir st path) node, e.file.content) = (a, c) :=
        Option.some_inj.mp heq
      obtain ⟨nd, hfilter, hfst⟩ := List.mem_map.mp hnode
      have hcond := (List.mem_filter.mp hfilter).2
      refine ⟨node, e, hl, ?_, (congrArg Prod.fst heq').symm,
        (congrArg Prod.snd heq').symm⟩
      rw [← hfst]
      simp only [Bool.and_eq_true] at hcond
      exact hcond.2

/-- Witness for `create_archive_committed_content` on `archiveState` with
prefix `/src` and caller `u1`: the future is `/tmp/proj-u1.zip`, a pending
insertion into `/src/a.txt` leaves the archive unchanged, the member
`/src/src/a.txt` carries the committed content `A`, and every member arises
from a registered file under `/src`. -/
theorem create_archive_committed_content_witness :
    (_task_create_archive archiveState "/src" "u1").2 = "/tmp/proj-u1.zip"
    ∧ _task_create_archive
        (_task_file_edit archiveState "/src/a.txt"
          [Change.mk 1 (JVal.jstr "!") true] "A") "/src" "u1"
        = _task_create_archive archiveState "/src" "u1"
    ∧ (sappend (archiveRootDir archiveState "/src") "/src/a.txt", "A")
        ∈ (_task_create_archive archiveState "/src" "u1").1
    ∧ (∃ (node : String) (e : FileUserPair),
        lookupFile archiveState.project_files node = some e
        ∧ strStartsWith node "/src" = true
        ∧ "/src/src/a.txt" = sappend (archiveRootDir archiveState "/src") node
        ∧ "A" = e.file.content) := by
  have h := create_archive_committed_content archiveState "/src" "u1" "/src/a.txt"
    [Change.mk 1 (JVal.jstr "!") true] "A"
  refine ⟨h.1.trans (by decide), h.2.1, ?_, ?_⟩
  · exact h.2.2.1 "/src/a.txt" (FileUserPair.mk (EditBuffer.mk "A" [] 0) []) rfl rfl
  · exact h.2.2.2 "/src/src/a.txt" "A" (by decide)

end Cide
